import Mathlib

/-!
# Shallow embedding of `src/src/Semaphore.ts`

The source is a single-word reader-writer semaphore over a `SharedArrayBuffer`.
The shared state is one 32-bit signed integer (the "word", the int32 at byte
offset 0 of the buffer), and each handle carries two private booleans
`__haveWriteLock` / `__haveReadLock`.

Embedding decisions:

* The 32-bit word is modelled as an `Int` together with `toInt32`, the
  wrap-to-int32 conversion that JavaScript's `Int32Array` store performs
  (`ToInt32` in ECMAScript): every value written through
  `Atomics.compareExchange` is reduced modulo 2^32 into `[-2^31, 2^31)`.
* `Atomics.compareExchange(view, 0, expected, replacement)` is modelled by
  `compareExchange`, returning the observed prior value and the new word.
* The acquire/release CAS-retry loops are embedded for the sequential
  (single-handle, no concurrent interference) semantics: between two loop
  iterations of one call nothing else touches the word, so a failed CAS leaves
  the word unchanged and `Atomics.wait` on the just-observed value blocks
  forever (nobody will ever notify).  A blocking wait is therefore the
  `blocked` outcome.  The loops are written with explicit fuel mirroring the
  source iteration structure; sequentially each loop settles within two
  iterations (one adoption of the observed value, then a matching CAS), which
  the `..Loop_fuel_stable` lemmas prove.
* A `throw` is the `err` outcome; it carries the state at throw time, so
  "throws without mutating" is a provable statement, not a modelling artifact.
  Error kinds follow the spec's classification of the messages:
  `Cannot ...` messages are `protocolViolation`, `Semaphore corrupted: ...`
  messages are `corruption`.
* `Atomics.notify` only wakes waiters and never changes the word or the local
  flags, so it has no footprint in the state and is not modelled.
-/

namespace SemaphoreModel

/-- ECMAScript `ToInt32`: wrap an integer into `[-2^31, 2^31)`.  This is what
storing a value into an `Int32Array` element does. -/
def toInt32 (n : Int) : Int :=
  (n + 2147483648) % 4294967296 - 2147483648

/-- `Semaphore.WRITE_LOCKED` in the source. -/
def WRITE_LOCKED : Int := -1

/-- `Semaphore.UNLOCKED` in the source. -/
def UNLOCKED : Int := 0

/-- A handle's visible state: the shared 32-bit word it points at, plus the
two private flags `__haveWriteLock` and `__haveReadLock` (defaulting to
`false` in the source class). -/
structure Semaphore where
  word : Int
  haveWriteLock : Bool
  haveReadLock : Bool
deriving DecidableEq, Repr

/-- The two error kinds of the design: protocol violations (caller misuse
detected from the local flags) and corruption (the shared word contradicts
the local state).  The source throws plain `Error`s; the constructor here
records the message and the spec's classification of it. -/
inductive SemError where
  | protocolViolation (msg : String)
  | corruption (msg : String)
deriving DecidableEq, Repr

/-- Outcome of one operation in the sequential model: normal return with the
new state, a throw carrying the state at throw time, or blocking forever
inside `Atomics.wait` (possible only for the acquire operations). -/
inductive Outcome where
  | ok (s : Semaphore)
  | err (e : SemError) (s : Semaphore)
  | blocked
deriving DecidableEq, Repr

/-- `Atomics.compareExchange(int32ArrayView, BYTE_OFFSET, expected,
replacement)`: returns the observed prior value, and the word afterwards
(updated, with int32 wrap, only if the observed value matched `expected`). -/
def compareExchange (word expected replacement : Int) : Int × Int :=
  (word, if word = expected then toInt32 replacement else word)

/-- `writeLock()`.  After the precondition checks, the source loops
`compareExchange(UNLOCKED, WRITE_LOCKED)`; on failure it does
`Atomics.wait(view, 0, lockState)` where `lockState` is the observed value.
Sequentially a failed CAS leaves the word equal to that observed value, so
the wait blocks forever: the loop either succeeds on its first CAS or never
returns. -/
def writeLock (s : Semaphore) : Outcome :=
  if s.haveReadLock then
    .err (.protocolViolation "Cannot acquire write lock without releasing read lock first") s
  else if s.haveWriteLock then
    .err (.protocolViolation "Cannot acquire write lock while already holding write lock") s
  else
    let (lockState, word') := compareExchange s.word UNLOCKED WRITE_LOCKED
    if lockState = UNLOCKED then
      .ok { s with word := word', haveWriteLock := true }
    else
      .blocked

/-- `writeUnlock()`: precondition checks, then one
`compareExchange(WRITE_LOCKED, UNLOCKED)`; a mismatch throws corruption (the
failed CAS leaves the word unchanged). -/
def writeUnlock (s : Semaphore) : Outcome :=
  if !s.haveWriteLock then
    .err (.protocolViolation "Cannot release write lock without acquiring write lock first") s
  else if s.haveReadLock then
    .err (.corruption "Semaphore corrupted: write and read lock held at the same time") s
  else
    let (observed, word') := compareExchange s.word WRITE_LOCKED UNLOCKED
    if observed = WRITE_LOCKED then
      .ok { s with word := word', haveWriteLock := false }
    else
      .err (.corruption "Semaphore corrupted: holding write lock, but unable to unlock")
        { s with word := word' }

/-- The CAS-retry loop of `readLock()`, with fuel.  One iteration:
`compareExchange(lockState, lockState + 1)`; on success the new word is
returned; if the observed value is `WRITE_LOCKED` the source does
`Atomics.wait(view, 0, WRITE_LOCKED)`, which sequentially blocks forever
(`none`); otherwise the observed value is adopted as the new `lockState` and
the loop retries. -/
def readLockLoop (lockState word : Int) : Nat → Option Int
  | 0 => none
  | fuel + 1 =>
    let (newLockState, word') := compareExchange word lockState (lockState + 1)
    if newLockState = lockState then some word'
    else if newLockState = WRITE_LOCKED then none
    else readLockLoop newLockState word' fuel

/-- `readLock()`: precondition checks, then the retry loop starting from the
assumed value `UNLOCKED`.  Sequentially the loop settles within two
iterations (lemma `readLockLoop_fuel_stable`), so fuel 2 realizes the exact
loop semantics. -/
def readLock (s : Semaphore) : Outcome :=
  if s.haveWriteLock then
    .err (.protocolViolation "Cannot acquire read lock without releasing write lock first") s
  else if s.haveReadLock then
    .err (.protocolViolation "Cannot acquire read lock while already holding read lock") s
  else
    match readLockLoop UNLOCKED s.word 2 with
    | some word' => .ok { s with word := word', haveReadLock := true }
    | none => .blocked

/-- Result of the `readUnlock()` retry loop: success with the new word,
the corruption throw (observed `WRITE_LOCKED`), or out of fuel. -/
inductive ReadUnlockResult where
  | success (word : Int)
  | corrupt
  | stuck
deriving DecidableEq, Repr

/-- The CAS-retry loop of `readUnlock()`, with fuel.  One iteration:
`compareExchange(lockState, lockState - 1)`; success returns the new word;
an observed `WRITE_LOCKED` throws corruption; any other observed value is
adopted and the loop retries. -/
def readUnlockLoop (lockState word : Int) : Nat → ReadUnlockResult
  | 0 => .stuck
  | fuel + 1 =>
    let (newLockState, word') := compareExchange word lockState (lockState - 1)
    if newLockState = lockState then .success word'
    else if newLockState = WRITE_LOCKED then .corrupt
    else readUnlockLoop newLockState word' fuel

/-- `readUnlock()`: precondition checks, then the retry loop starting from
the assumed value `1`.  Sequentially fuel 2 realizes the exact loop semantics
(lemma `readUnlockLoop_fuel_stable`); in particular the loop never runs out
of fuel, so the `stuck` branch is unreachable. -/
def readUnlock (s : Semaphore) : Outcome :=
  if !s.haveReadLock then
    .err (.protocolViolation "Cannot release read lock without acquiring read lock first") s
  else if s.haveWriteLock then
    .err (.corruption "Semaphore corrupted: write and read lock held at the same time") s
  else
    match readUnlockLoop 1 s.word 2 with
    | .success word' => .ok { s with word := word', haveReadLock := false }
    | .corrupt => .err (.corruption "Semaphore corrupted: Read lock was overridden by write lock") s
    | .stuck => .blocked

/-- `new Int32Array(arrayBuffer)` with no offset/length arguments
(ECMAScript): throws a `RangeError` unless the buffer's byte length is a
multiple of 4 (the element size); there is no minimum-size requirement.
The buffer's content is summarized by the int32 `word` at offset 0 (the only
part the semaphore touches); the flags start `false` per the field
initializers. -/
def fromBuffer (byteLength : Nat) (word : Int) : Except String Semaphore :=
  if byteLength % 4 = 0 then
    .ok { word := word, haveWriteLock := false, haveReadLock := false }
  else
    .error "RangeError: byte length of Int32Array should be a multiple of 4"

/-- `Semaphore.new()`: allocates a fresh zero-initialized buffer of exactly
4 bytes via the (possibly caller-supplied) `ArrayBuffer` constructor and
wraps it. -/
def Semaphore.new : Except String Semaphore :=
  fromBuffer 4 0

/-- `Semaphore.from(arrayBuffer)`: wraps an existing buffer, whatever its
current word value is. -/
def Semaphore.from (byteLength : Nat) (word : Int) : Except String Semaphore :=
  fromBuffer byteLength word

/-! ## Sequential traces on one handle -/

/-- The four public lock operations. -/
inductive Op where
  | writeLock
  | writeUnlock
  | readLock
  | readUnlock
deriving DecidableEq, Repr

/-- Dispatch one operation on a handle. -/
def applyOp (s : Semaphore) : Op → Outcome
  | .writeLock => writeLock s
  | .writeUnlock => writeUnlock s
  | .readLock => readLock s
  | .readUnlock => readUnlock s

/-- Run a sequence of calls on one handle; a throw or a block aborts the
trace and is returned as the final outcome. -/
def runTrace (s : Semaphore) : List Op → Outcome
  | [] => .ok s
  | op :: rest =>
    match applyOp s op with
    | .ok s' => runTrace s' rest
    | .err e s' => .err e s'
    | .blocked => .blocked

/-- The state a handle is left in by one call: a throw leaves the state it
carried (the code mutates nothing after the throw point); a block never
returns. -/
def Outcome.state : Outcome → Option Semaphore
  | .ok s => some s
  | .err _ s => some s
  | .blocked => none

/-- Run a sequence of calls on one handle, continuing past throws (the
handle object survives a caught exception); a block freezes the state. -/
def runOps (s : Semaphore) : List Op → Semaphore
  | [] => s
  | op :: rest =>
    match (applyOp s op).state with
    | some s' => runOps s' rest
    | none => s

/-- The per-handle local invariant of the design: a handle never believes it
holds the write lock and a read lock at the same time. -/
def flagsOk (s : Semaphore) : Prop :=
  ¬(s.haveWriteLock = true ∧ s.haveReadLock = true)

/-- The protocol automaton for one handle, over the pair
(write lock held, read lock held): an acquire is allowed only when holding
nothing, a release only for a lock actually held. -/
def protoStep : Bool → Bool → Op → Option (Bool × Bool)
  | w, r, .writeLock => if w || r then none else some (true, r)
  | w, r, .writeUnlock => if w then some (false, r) else none
  | w, r, .readLock => if w || r then none else some (w, true)
  | w, r, .readUnlock => if r then some (w, false) else none

/-- Run the protocol automaton over a call sequence. -/
def protoRun : Bool → Bool → List Op → Option (Bool × Bool)
  | w, r, [] => some (w, r)
  | w, r, op :: rest =>
    match protoStep w r op with
    | some (w', r') => protoRun w' r' rest
    | none => none

/-- A call sequence respects the protocol: it never acquires while holding a
lock, never releases a lock not held, and ends with everything it acquired
released. -/
@[reducible]
def ProtocolOk (ops : List Op) : Prop :=
  protoRun false false ops = some (false, false)

/-- The handle state determined by the protocol flags in an uninterfered
single-handle run: word `-1` while holding the write lock, `1` while holding
a read lock, `0` otherwise. -/
def stateOf (w r : Bool) : Semaphore :=
  ⟨if w then -1 else if r then 1 else 0, w, r⟩

/-! ## Two handles over the same word: commit-level interleaving

Handles in different execution contexts interact only through the atomic
`compareExchange` calls on the shared word; a successful CAS is the single
linearization point of each operation (failed CASes, waits and notifies do
not change the word, and the local flags of a handle are written only by
that handle, right after its successful CAS).  The interleaved behavior of
two handles is therefore captured by a step relation whose steps are the
successful CAS commits of the four operations, each guarded by the local
flag preconditions the source checks before entering its loop. -/

/-- The private flags of one handle. -/
structure HandleFlags where
  haveWriteLock : Bool
  haveReadLock : Bool
deriving DecidableEq, Repr

/-- One handle's commit: `HStep w h w' h'` relates the shared word and the
handle's flags before and after a successful CAS of one operation.

* `writeLockCommit`: the loop in `writeLock` always passes expected value
  `UNLOCKED`, so its CAS commits exactly when the word is `0`, storing `-1`.
* `writeUnlockCommit`: the single CAS in `writeUnlock` commits exactly when
  the word is `-1`, storing `0` (a mismatch throws and mutates nothing).
* `readLockCommit`: the loop in `readLock` never passes `-1` as the expected
  value (it starts from `0`, and an observed `-1` makes it wait and reset the
  assumed value to `0`), so its CAS commits exactly when the word equals the
  previously observed expected value `≠ -1`, storing that value plus one
  (with int32 wrap).
* `readUnlockCommit`: the loop in `readUnlock` never passes `-1` as the
  expected value (it starts from `1`, and an observed `-1` throws), so its
  CAS commits exactly when the word equals some observed value `≠ -1`,
  storing that value minus one (with int32 wrap). -/
inductive HStep : Int → HandleFlags → Int → HandleFlags → Prop where
  | writeLockCommit (h : HandleFlags)
      (hr : h.haveReadLock = false) (hw : h.haveWriteLock = false) :
      HStep UNLOCKED h WRITE_LOCKED ⟨true, false⟩
  | writeUnlockCommit (h : HandleFlags)
      (hw : h.haveWriteLock = true) (hr : h.haveReadLock = false) :
      HStep WRITE_LOCKED h UNLOCKED ⟨false, false⟩
  | readLockCommit (w : Int) (h : HandleFlags)
      (hw : h.haveWriteLock = false) (hr : h.haveReadLock = false)
      (hword : w ≠ WRITE_LOCKED) :
      HStep w h (toInt32 (w + 1)) ⟨false, true⟩
  | readUnlockCommit (w : Int) (h : HandleFlags)
      (hr : h.haveReadLock = true) (hw : h.haveWriteLock = false)
      (hword : w ≠ WRITE_LOCKED) :
      HStep w h (toInt32 (w - 1)) ⟨false, false⟩

/-- Global state of two handles attached to the same shared word. -/
structure Sys2 where
  word : Int
  a : HandleFlags
  b : HandleFlags
deriving DecidableEq, Repr

/-- Interleaving: either handle performs one commit. -/
inductive Step : Sys2 → Sys2 → Prop where
  | stepA (s : Sys2) (w' : Int) (a' : HandleFlags) :
      HStep s.word s.a w' a' → Step s ⟨w', a', s.b⟩
  | stepB (s : Sys2) (w' : Int) (b' : HandleFlags) :
      HStep s.word s.b w' b' → Step s ⟨w', s.a, b'⟩

/-- Initial state: a freshly created lock (word `0`) and two handles with
their flags at the default `false`. -/
def Sys2.init : Sys2 :=
  ⟨0, ⟨false, false⟩, ⟨false, false⟩⟩

/-- States reachable from the initial state by interleaved commits. -/
def Reachable (s : Sys2) : Prop :=
  Relation.ReflTransGen Step Sys2.init s

/-- Number of handles currently believing they hold the write lock. -/
def writerCount (s : Sys2) : Nat :=
  (if s.a.haveWriteLock then 1 else 0) + (if s.b.haveWriteLock then 1 else 0)

/-- Number of handles currently believing they hold a read lock. -/
def readerCount (s : Sys2) : Nat :=
  (if s.a.haveReadLock then 1 else 0) + (if s.b.haveReadLock then 1 else 0)

/-- The global coupling invariant: either the word is `-1` with exactly one
outstanding write acquisition and no read holders, or the word equals the
number of read holders and there is no write holder. -/
def Inv (s : Sys2) : Prop :=
  (s.word = WRITE_LOCKED ∧ writerCount s = 1 ∧ readerCount s = 0) ∨
  (s.word = (readerCount s : Int) ∧ writerCount s = 0)

/-! ## Basic lemmas -/

theorem toInt32_eq_self (n : Int) (h1 : -2147483648 ≤ n) (h2 : n < 2147483648) :
    toInt32 n = n := by
  unfold toInt32
  have ha : (0 : Int) ≤ n + 2147483648 := by omega
  have hb : n + 2147483648 < 4294967296 := by omega
  rw [Int.emod_eq_of_lt ha hb]
  omega

/-- Sequentially the `readLock` loop settles within two iterations: any fuel
of at least `2` computes the same result as fuel `2`. -/
theorem readLockLoop_fuel_stable (fuel : Nat) (h : 2 ≤ fuel) (word : Int) :
    readLockLoop UNLOCKED word fuel = readLockLoop UNLOCKED word 2 := by
  obtain ⟨k, rfl⟩ : ∃ k, fuel = k + 2 := ⟨fuel - 2, by omega⟩
  by_cases h0 : word = UNLOCKED
  · simp [readLockLoop, compareExchange, h0]
  · by_cases h1 : word = WRITE_LOCKED
    · simp [readLockLoop, compareExchange, h0, h1]
    · simp [readLockLoop, compareExchange, h0, h1]

/-- Sequentially the `readUnlock` loop settles within two iterations. -/
theorem readUnlockLoop_fuel_stable (fuel : Nat) (h : 2 ≤ fuel) (word : Int) :
    readUnlockLoop 1 word fuel = readUnlockLoop 1 word 2 := by
  obtain ⟨k, rfl⟩ : ∃ k, fuel = k + 2 := ⟨fuel - 2, by omega⟩
  by_cases h0 : word = 1
  · simp [readUnlockLoop, compareExchange, h0]
  · by_cases h1 : word = WRITE_LOCKED
    · simp [readUnlockLoop, compareExchange, h0, h1]
    · simp [readUnlockLoop, compareExchange, h0, h1]

/-- Value of the `readLock` loop at fuel `2` (the sequential semantics):
blocked on a write-locked word, otherwise the incremented word. -/
theorem readLockLoop_eval (word : Int) :
    readLockLoop 0 word 2 =
      if word = -1 then none else some (toInt32 (word + 1)) := by
  by_cases h0 : word = (0 : Int)
  · subst h0; decide
  · by_cases h1 : word = (-1 : Int)
    · subst h1; decide
    · simp only [readLockLoop, compareExchange, UNLOCKED, WRITE_LOCKED]
      rw [if_neg h0]
      simp only [if_neg h0, if_neg h1, if_pos rfl, if_neg (Ne.symm h0)]
      simp

/-- Value of the `readUnlock` loop at fuel `2` (the sequential semantics):
the corruption throw on a write-locked word, otherwise the decremented
word. -/
theorem readUnlockLoop_eval (word : Int) :
    readUnlockLoop 1 word 2 =
      if word = -1 then .corrupt else .success (toInt32 (word - 1)) := by
  by_cases h0 : word = (1 : Int)
  · subst h0; decide
  · by_cases h1 : word = (-1 : Int)
    · subst h1; decide
    · simp only [readUnlockLoop, compareExchange, WRITE_LOCKED]
      rw [if_neg h0]
      simp only [if_neg h0, if_neg h1, if_pos rfl, if_neg (Ne.symm h0)]
      simp

/-- Behavior of `writeLock` when the local preconditions hold: commit when
the word is `0`, block forever otherwise. -/
theorem writeLock_spec (s : Semaphore)
    (hr : s.haveReadLock = false) (hw : s.haveWriteLock = false) :
    writeLock s =
      if s.word = 0 then .ok { s with word := -1, haveWriteLock := true }
      else .blocked := by
  obtain ⟨w, swl, srl⟩ := s
  simp only at hr hw
  subst hr; subst hw
  by_cases h0 : w = (0 : Int)
  · subst h0; decide
  · simp only [writeLock, compareExchange, UNLOCKED, WRITE_LOCKED,
      Bool.false_eq_true, if_false]
    simp only [if_neg h0]

/-- Behavior of `writeUnlock` when the local preconditions hold: commit when
the word is `-1`, throw corruption otherwise, touching nothing. -/
theorem writeUnlock_spec (s : Semaphore)
    (hw : s.haveWriteLock = true) (hr : s.haveReadLock = false) :
    writeUnlock s =
      if s.word = -1 then .ok { s with word := 0, haveWriteLock := false }
      else .err
        (.corruption "Semaphore corrupted: holding write lock, but unable to unlock") s := by
  obtain ⟨w, swl, srl⟩ := s
  simp only at hr hw
  subst hr; subst hw
  by_cases h0 : w = (-1 : Int)
  · subst h0; decide
  · simp only [writeUnlock, compareExchange, UNLOCKED, WRITE_LOCKED,
      Bool.not_true, Bool.false_eq_true, if_false]
    simp only [if_neg h0]

/-- Behavior of `readLock` when the local preconditions hold: block forever
on a write-locked word, otherwise increment the word (with int32 wrap). -/
theorem readLock_spec (s : Semaphore)
    (hw : s.haveWriteLock = false) (hr : s.haveReadLock = false) :
    readLock s =
      if s.word = -1 then .blocked
      else .ok { s with word := toInt32 (s.word + 1), haveReadLock := true } := by
  obtain ⟨w, swl, srl⟩ := s
  simp only at hr hw
  subst hr; subst hw
  simp only [readLock, UNLOCKED, Bool.false_eq_true, if_false, readLockLoop_eval]
  by_cases h1 : w = (-1 : Int)
  · rw [if_pos h1, if_pos h1]
  · rw [if_neg h1, if_neg h1]

/-- Behavior of `readUnlock` when the local preconditions hold: throw
corruption on a write-locked word, otherwise decrement the word (with int32
wrap). -/
theorem readUnlock_spec (s : Semaphore)
    (hr : s.haveReadLock = true) (hw : s.haveWriteLock = false) :
    readUnlock s =
      if s.word = -1 then
        .err (.corruption "Semaphore corrupted: Read lock was overridden by write lock") s
      else .ok { s with word := toInt32 (s.word - 1), haveReadLock := false } := by
  obtain ⟨w, swl, srl⟩ := s
  simp only at hr hw
  subst hr; subst hw
  simp only [readUnlock, Bool.not_true, Bool.false_eq_true, if_false, readUnlockLoop_eval]
  by_cases h1 : w = (-1 : Int)
  · rw [if_pos h1, if_pos h1]
  · rw [if_neg h1, if_neg h1]

/-! ## Claim theorems -/

/-- C3 (amended): with both flags false and the word holding `n`,
`readLock` succeeds and leaves the word at `n + 1` for every
`0 ≤ n < 2^31 - 1` (at `n = 2^31 - 1` it still succeeds but the stored value
wraps); with `holdsRead` true, `holdsWrite` false and the word holding `n`,
`readUnlock` succeeds and leaves the word at `n - 1` for every
`1 ≤ n ≤ 2^31 - 1`. -/
theorem read_lock_unlock_transitions (n : Int) :
    (0 ≤ n → n < 2147483647 →
      readLock ⟨n, false, false⟩ = .ok ⟨n + 1, false, true⟩) ∧
    (1 ≤ n → n ≤ 2147483647 →
      readUnlock ⟨n, false, true⟩ = .ok ⟨n - 1, false, false⟩) := by
  constructor
  · intro h1 h2
    have hspec := readLock_spec ⟨n, false, false⟩ rfl rfl
    simp only [show (⟨n, false, false⟩ : Semaphore).word = n from rfl] at hspec
    rw [hspec, if_neg (show ¬n = -1 by omega),
      toInt32_eq_self (n + 1) (by omega) (by omega)]
  · intro h1 h2
    have hspec := readUnlock_spec ⟨n, false, true⟩ rfl rfl
    simp only [show (⟨n, false, true⟩ : Semaphore).word = n from rfl] at hspec
    rw [hspec, if_neg (show ¬n = -1 by omega),
      toInt32_eq_self (n - 1) (by omega) (by omega)]

/-- C3 (counterexample): at `n = 2147483647` (which satisfies `n ≥ 0`),
`readLock` succeeds but leaves the word at `-2147483648`, not at `n + 1` as
the claim states for every `n ≥ 0`. -/
theorem read_transitions_counterexample :
    readLock ⟨2147483647, false, false⟩ = .ok ⟨-2147483648, false, true⟩ ∧
    (-2147483648 : Int) ≠ 2147483647 + 1 :=
  ⟨by decide, by decide⟩

/-- C3 (witness): the amended transitions at `n = 5` and `n = 6`. -/
theorem read_transitions_witness :
    readLock ⟨5, false, false⟩ = .ok ⟨6, false, true⟩ ∧
    readUnlock ⟨6, false, true⟩ = .ok ⟨5, false, false⟩ :=
  ⟨(read_lock_unlock_transitions 5).1 (by decide) (by decide),
   (read_lock_unlock_transitions 6).2 (by decide) (by decide)⟩

/-- C4: every locally detectable misuse throws a `ProtocolViolation` before
any access to the shared word and leaves the state (shared word and local
flags) exactly as it was: `writeLock` while holding either lock, `readLock`
while holding either lock, `writeUnlock` without the write lock, and
`readUnlock` without a read lock. -/
theorem local_misuse_protocol_violation (s : Semaphore) :
    ((s.haveReadLock = true ∨ s.haveWriteLock = true) →
      ∃ m, writeLock s = .err (.protocolViolation m) s) ∧
    ((s.haveWriteLock = true ∨ s.haveReadLock = true) →
      ∃ m, readLock s = .err (.protocolViolation m) s) ∧
    (s.haveWriteLock = false →
      ∃ m, writeUnlock s = .err (.protocolViolation m) s) ∧
    (s.haveReadLock = false →
      ∃ m, readUnlock s = .err (.protocolViolation m) s) := by
  obtain ⟨w, swl, srl⟩ := s
  cases swl <;> cases srl <;>
    simp [writeLock, writeUnlock, readLock, readUnlock]

/-- C4 (witness): concrete misuse instances for each operation. -/
theorem local_misuse_witness :
    (∃ m, writeLock ⟨0, false, true⟩ = .err (.protocolViolation m) ⟨0, false, true⟩) ∧
    (∃ m, readLock ⟨-1, true, false⟩ = .err (.protocolViolation m) ⟨-1, true, false⟩) ∧
    (∃ m, writeUnlock ⟨0, false, false⟩ = .err (.protocolViolation m) ⟨0, false, false⟩) ∧
    (∃ m, readUnlock ⟨0, false, false⟩ = .err (.protocolViolation m) ⟨0, false, false⟩) :=
  ⟨(local_misuse_protocol_violation ⟨0, false, true⟩).1 (Or.inl rfl),
   (local_misuse_protocol_violation ⟨-1, true, false⟩).2.1 (Or.inl rfl),
   (local_misuse_protocol_violation ⟨0, false, false⟩).2.2.1 rfl,
   (local_misuse_protocol_violation ⟨0, false, false⟩).2.2.2 rfl⟩

/-- C5: a release that observes a shared word contradicting its local state
throws `Corruption` and leaves the word and the flags unchanged:
`writeUnlock` holding the write lock while the word is not `-1`, and
`readUnlock` holding a read lock while the word is `-1`. -/
theorem release_corruption (s : Semaphore) :
    (s.haveWriteLock = true → s.haveReadLock = false → s.word ≠ -1 →
      writeUnlock s =
        .err (.corruption "Semaphore corrupted: holding write lock, but unable to unlock") s) ∧
    (s.haveReadLock = true → s.haveWriteLock = false → s.word = -1 →
      readUnlock s =
        .err (.corruption "Semaphore corrupted: Read lock was overridden by write lock") s) := by
  constructor
  · intro hw hr hword
    rw [writeUnlock_spec s hw hr, if_neg hword]
  · intro hr hw hword
    rw [readUnlock_spec s hr hw, if_pos hword]

/-- C5 (witness): the two corruption cases at concrete states. -/
theorem release_corruption_witness :
    writeUnlock ⟨5, true, false⟩ =
      .err (.corruption "Semaphore corrupted: holding write lock, but unable to unlock")
        ⟨5, true, false⟩ ∧
    readUnlock ⟨-1, false, true⟩ =
      .err (.corruption "Semaphore corrupted: Read lock was overridden by write lock")
        ⟨-1, false, true⟩ :=
  ⟨(release_corruption ⟨5, true, false⟩).1 rfl rfl (by decide),
   (release_corruption ⟨-1, false, true⟩).2 rfl rfl rfl⟩

/-- C6: the basic write scenario: `new` yields word `0` with both flags
false; `writeLock` then succeeds leaving word `-1` and `holdsWrite` true;
`writeUnlock` then succeeds leaving word `0` and `holdsWrite` false; no step
throws or blocks. -/
theorem basic_write_scenario :
    Semaphore.new = .ok ⟨0, false, false⟩ ∧
    writeLock ⟨0, false, false⟩ = .ok ⟨-1, true, false⟩ ∧
    writeUnlock ⟨-1, true, false⟩ = .ok ⟨0, false, false⟩ :=
  ⟨rfl, by decide, by decide⟩

/-- C8 (amended): `new` always succeeds (it allocates exactly 4 bytes) with
word `0` and both flags false; `from` succeeds, with both flags false,
exactly when the buffer's byte length is a multiple of 4 (the `Int32Array`
element size), and otherwise throws a `RangeError`.  There is no
at-least-4-bytes check. -/
theorem construction_spec (byteLength : Nat) (word : Int) :
    Semaphore.new = .ok ⟨0, false, false⟩ ∧
    (byteLength % 4 = 0 →
      Semaphore.from byteLength word = .ok ⟨word, false, false⟩) ∧
    (byteLength % 4 ≠ 0 →
      ∃ m, Semaphore.from byteLength word = .error m) := by
  refine ⟨rfl, ?_, ?_⟩
  · intro h
    simp [Semaphore.from, fromBuffer, h]
  · intro h
    simp [Semaphore.from, fromBuffer, h]

/-- C8 (counterexample): a 5-byte region (at least 4 bytes) makes `from`
throw, and a 0-byte region (fewer than 4 bytes) is accepted: the claimed
"at least 4 bytes" defensive check does not exist. -/
theorem construction_counterexample :
    (4 ≤ 5 ∧ ∃ m, Semaphore.from 5 0 = .error m) ∧
    ((0 : Nat) < 4 ∧ Semaphore.from 0 0 = .ok ⟨0, false, false⟩) :=
  ⟨⟨by decide, ⟨"RangeError: byte length of Int32Array should be a multiple of 4", rfl⟩⟩,
   ⟨by decide, rfl⟩⟩

/-- C8 (witness): a multiple-of-4 buffer is accepted, a 5-byte buffer is
not. -/
theorem construction_spec_witness :
    Semaphore.from 8 7 = .ok ⟨7, false, false⟩ ∧
    ∃ m, Semaphore.from 5 7 = .error m :=
  ⟨(construction_spec 8 7).2.1 (by decide), (construction_spec 5 7).2.2 (by decide)⟩

/-- C9: `readUnlock` on a handle whose `holdsRead` flag is true while the
word holds `0` does not throw: the loop adopts the observed `0` and
compare-and-swaps it to `-1`, the write-locked sentinel, clearing the
flag. -/
theorem readUnlock_word_zero_goes_negative :
    readUnlock ⟨0, false, true⟩ = .ok ⟨-1, false, false⟩ := by decide

/-- C10: `readLock` on word `2147483647 = 2^31 - 1` with both flags false
succeeds, but the stored incremented value wraps in 32-bit arithmetic to
`-2147483648 = -2^31`, a value below `-1`. -/
theorem readLock_wraps_at_int32_max :
    readLock ⟨2147483647, false, false⟩ = .ok ⟨-2147483648, false, true⟩ ∧
    (-2147483648 : Int) < -1 :=
  ⟨by decide, by decide⟩

/-- Coupling step for protocol traces: a protocol-allowed operation on the
coupled single-handle state succeeds and moves to the coupled next state. -/
theorem applyOp_stateOf_step (op : Op) :
    ∀ w r w' r' : Bool, ¬(w = true ∧ r = true) →
    protoStep w r op = some (w', r') →
    applyOp (stateOf w r) op = .ok (stateOf w' r') ∧ ¬(w' = true ∧ r' = true) := by
  cases op <;> decide

/-- Under the protocol automaton, the single-handle run from the coupled
state never throws or blocks and ends in the coupled final state. -/
theorem runTrace_couple (ops : List Op) :
    ∀ w r : Bool, ¬(w = true ∧ r = true) →
    protoRun w r ops = some (false, false) →
    runTrace (stateOf w r) ops = .ok (stateOf false false) := by
  induction ops with
  | nil =>
    intro w r hwr hp
    simp only [protoRun, Option.some.injEq, Prod.mk.injEq] at hp
    obtain ⟨rfl, rfl⟩ := hp
    rfl
  | cons op rest ih =>
    intro w r hwr hp
    simp only [protoRun] at hp
    rcases h2 : protoStep w r op with _ | ⟨w', r'⟩
    · rw [h2] at hp
      exact Option.noConfusion hp
    · rw [h2] at hp
      obtain ⟨happ, hwr'⟩ := applyOp_stateOf_step op w r w' r' hwr h2
      simp only [runTrace, happ]
      exact ih w' r' hwr' hp

/-- C1: every protocol-respecting call sequence on one handle, starting from
a fresh lock, raises no error and never blocks, and the shared word is back
at `0` (both flags false) after the last release. -/
theorem protocol_traces_safe (ops : List Op) (h : ProtocolOk ops) :
    runTrace ⟨0, false, false⟩ ops = .ok ⟨0, false, false⟩ :=
  runTrace_couple ops false false (by simp) h

/-- C1 (witness): a concrete protocol-respecting trace. -/
theorem protocol_traces_safe_witness :
    ProtocolOk [Op.readLock, Op.readUnlock, Op.writeLock, Op.writeUnlock] ∧
    runTrace ⟨0, false, false⟩ [Op.readLock, Op.readUnlock, Op.writeLock, Op.writeUnlock] =
      .ok ⟨0, false, false⟩ :=
  ⟨by decide, protocol_traces_safe _ (by decide)⟩

/-- C7: the local flags are never both true: the invariant holds for a fresh
handle (both default false) whatever the word is, is maintained across any
sequence of the four operations (whether they return or throw), and is
preserved by every single operation. -/
theorem flags_never_both_true :
    (∀ (w : Int) (ops : List Op), flagsOk (runOps ⟨w, false, false⟩ ops)) ∧
    (∀ (s : Semaphore) (op : Op) (s' : Semaphore),
      flagsOk s → (applyOp s op).state = some s' → flagsOk s') := by
  have step : ∀ (s : Semaphore) (op : Op) (s' : Semaphore),
      flagsOk s → (applyOp s op).state = some s' → flagsOk s' := by
    intro s op s' hs h
    obtain ⟨w, swl, srl⟩ := s
    obtain ⟨w2, swl2, srl2⟩ := s'
    cases swl <;> cases srl <;> cases op
    case true.true.writeLock => exact absurd ⟨rfl, rfl⟩ hs
    case true.true.writeUnlock => exact absurd ⟨rfl, rfl⟩ hs
    case true.true.readLock => exact absurd ⟨rfl, rfl⟩ hs
    case true.true.readUnlock => exact absurd ⟨rfl, rfl⟩ hs
    all_goals
      by_cases h0 : w = (0 : Int) <;> by_cases h1 : w = (-1 : Int) <;>
        simp_all [applyOp, writeLock, writeUnlock, readLock, readUnlock,
          compareExchange, readLockLoop_eval, readUnlockLoop_eval,
          Outcome.state, flagsOk, UNLOCKED, WRITE_LOCKED]
  refine ⟨?_, step⟩
  have trace : ∀ (ops : List Op) (s : Semaphore), flagsOk s → flagsOk (runOps s ops) := by
    intro ops
    induction ops with
    | nil => intro s hs; exact hs
    | cons op rest ih =>
      intro s hs
      simp only [runOps]
      rcases hst : (applyOp s op).state with _ | s'
      · exact hs
      · exact ih s' (step s op s' hs hst)
  intro w ops
  exact trace ops ⟨w, false, false⟩ (by simp [flagsOk])

/-- C7 (witness): the invariant after a concrete acquisition. -/
theorem flags_never_both_true_witness :
    flagsOk (⟨-1, true, false⟩ : Semaphore) :=
  flags_never_both_true.2 ⟨0, false, false⟩ Op.writeLock ⟨-1, true, false⟩
    (by simp [flagsOk]) (by decide)

/-- The invariant holds in the initial two-handle state. -/
theorem Inv_init : Inv Sys2.init :=
  Or.inr (by decide)

/-- Case characterization of one handle commit. -/
theorem HStep_cases (w : Int) (hf : HandleFlags) (w' : Int) (hf' : HandleFlags)
    (st : HStep w hf w' hf') :
    (w = 0 ∧ hf.haveReadLock = false ∧ hf.haveWriteLock = false ∧
      w' = -1 ∧ hf' = ⟨true, false⟩) ∨
    (w = -1 ∧ hf.haveWriteLock = true ∧ hf.haveReadLock = false ∧
      w' = 0 ∧ hf' = ⟨false, false⟩) ∨
    (hf.haveWriteLock = false ∧ hf.haveReadLock = false ∧ ¬w = -1 ∧
      w' = toInt32 (w + 1) ∧ hf' = ⟨false, true⟩) ∨
    (hf.haveReadLock = true ∧ hf.haveWriteLock = false ∧ ¬w = -1 ∧
      w' = toInt32 (w - 1) ∧ hf' = ⟨false, false⟩) := by
  cases st with
  | writeLockCommit hfl hr hw => exact Or.inl ⟨rfl, hr, hw, rfl, rfl⟩
  | writeUnlockCommit hfl hw hr => exact Or.inr (Or.inl ⟨rfl, hw, hr, rfl, rfl⟩)
  | readLockCommit w0 hfl hw hr hword =>
    exact Or.inr (Or.inr (Or.inl ⟨hw, hr, hword, rfl, rfl⟩))
  | readUnlockCommit w0 hfl hr hw hword =>
    exact Or.inr (Or.inr (Or.inr ⟨hr, hw, hword, rfl, rfl⟩))

/-- The invariant is preserved by every interleaved commit. -/
theorem Inv_step (s s' : Sys2) (hs : Inv s) (hstep : Step s s') : Inv s' := by
  obtain ⟨w, a, b⟩ := s
  unfold Inv at hs ⊢
  cases hstep with
  | stepA w' a' h =>
    obtain ⟨aw, ar⟩ := a
    obtain ⟨bw, br⟩ := b
    rcases HStep_cases _ _ _ _ h with
        ⟨hw0, hr, hwl, rfl, rfl⟩ | ⟨hw0, hwl, hr, rfl, rfl⟩ |
        ⟨hwl, hr, hne, rfl, rfl⟩ | ⟨hr, hwl, hne, rfl, rfl⟩
    · simp only at hw0 hr hwl
      subst hw0; subst hr; subst hwl
      cases bw <;> cases br <;>
        simp_all [writerCount, readerCount, WRITE_LOCKED, UNLOCKED]
    · simp only at hw0 hr hwl
      subst hw0; subst hr; subst hwl
      cases bw <;> cases br <;>
        simp_all [writerCount, readerCount, WRITE_LOCKED, UNLOCKED]
    · simp only at hr hwl
      subst hr; subst hwl
      rcases hs with ⟨h1, h2, h3⟩ | ⟨h1, h2⟩
      · exact absurd h1 hne
      · right
        cases bw <;> cases br <;>
          simp_all [writerCount, readerCount, WRITE_LOCKED] <;>
          decide
    · simp only at hr hwl
      subst hr; subst hwl
      rcases hs with ⟨h1, h2, h3⟩ | ⟨h1, h2⟩
      · exact absurd h1 hne
      · right
        cases bw <;> cases br <;>
          simp_all [writerCount, readerCount, WRITE_LOCKED] <;>
          decide
  | stepB w' b' h =>
    obtain ⟨aw, ar⟩ := a
    obtain ⟨bw, br⟩ := b
    rcases HStep_cases _ _ _ _ h with
        ⟨hw0, hr, hwl, rfl, rfl⟩ | ⟨hw0, hwl, hr, rfl, rfl⟩ |
        ⟨hwl, hr, hne, rfl, rfl⟩ | ⟨hr, hwl, hne, rfl, rfl⟩
    · simp only at hw0 hr hwl
      subst hw0; subst hr; subst hwl
      cases aw <;> cases ar <;>
        simp_all [writerCount, readerCount, WRITE_LOCKED, UNLOCKED]
    · simp only at hw0 hr hwl
      subst hw0; subst hr; subst hwl
      cases aw <;> cases ar <;>
        simp_all [writerCount, readerCount, WRITE_LOCKED, UNLOCKED]
    · simp only at hr hwl
      subst hr; subst hwl
      rcases hs with ⟨h1, h2, h3⟩ | ⟨h1, h2⟩
      · exact absurd h1 hne
      · right
        cases aw <;> cases ar <;>
          simp_all [writerCount, readerCount, WRITE_LOCKED] <;>
          decide
    · simp only at hr hwl
      subst hr; subst hwl
      rcases hs with ⟨h1, h2, h3⟩ | ⟨h1, h2⟩
      · exact absurd h1 hne
      · right
        cases aw <;> cases ar <;>
          simp_all [writerCount, readerCount, WRITE_LOCKED] <;>
          decide

/-- The invariant holds in every reachable two-handle state. -/
theorem Inv_reachable (s : Sys2) (h : Reachable s) : Inv s := by
  induction h with
  | refl => exact Inv_init
  | tail hab hbc ih => exact Inv_step _ _ ih hbc

/-- C2: in every reachable interleaving of two handles over the same word,
the word being `-1` implies exactly one outstanding write acquisition, and
in particular the two handles never both hold the write lock. -/
theorem write_mutual_exclusion (s : Sys2) (h : Reachable s) :
    (s.word = -1 → writerCount s = 1) ∧
    ¬(s.a.haveWriteLock = true ∧ s.b.haveWriteLock = true) := by
  have hinv := Inv_reachable s h
  unfold Inv at hinv
  constructor
  · intro hw
    rcases hinv with ⟨_, h2, _⟩ | ⟨h1, h2⟩
    · exact h2
    · rw [hw] at h1
      omega
  · rintro ⟨ha, hb⟩
    rcases hinv with ⟨_, h2, _⟩ | ⟨_, h2⟩ <;>
      simp [writerCount, ha, hb] at h2

/-- C2 (witness): the state reached by one `writeLock` commit of handle A. -/
theorem write_mutual_exclusion_witness :
    ¬((⟨-1, ⟨true, false⟩, ⟨false, false⟩⟩ : Sys2).a.haveWriteLock = true ∧
      (⟨-1, ⟨true, false⟩, ⟨false, false⟩⟩ : Sys2).b.haveWriteLock = true) :=
  (write_mutual_exclusion ⟨-1, ⟨true, false⟩, ⟨false, false⟩⟩
    (Relation.ReflTransGen.single
      (Step.stepA Sys2.init (-1) ⟨true, false⟩
        (HStep.writeLockCommit ⟨false, false⟩ rfl rfl)))).2

end SemaphoreModel
